import Mathlib

/-!
Verification development for the WFC3/UVIS G280 transit light-curve pipeline
(file notebooks/WFC3/uvis_g280_transit/g280_transit_tools.py).

The Python functions are shallowly embedded as Lean definitions:

* scalar header/parameter values (LTV, CRPIX, aperture bounds, wavelengths)
  are exact rationals;
* pixel data planes carry values in an arbitrary type or in the reals,
  since the embedding uses exact arithmetic in place of IEEE floats;
* numpy array shapes are carried explicitly (arrays of known shape are
  total functions from index pairs, 1-D arrays are lists);
* Python and numpy indexing conventions (truncating int conversion,
  negative-index wrap-around, slice clamping, broadcast rules of slice
  assignment) are modelled exactly, with numpy exceptions as Except errors.
-/

namespace G280

/-! ### Python scalar and slice semantics -/

/-- Python int() applied to an exact rational value: truncation toward zero
(floor for nonnegative arguments, ceiling for negative ones). -/
def pyInt (q : ℚ) : ℤ := if 0 ≤ q then ⌊q⌋ else ⌈q⌉

/-- Normalisation of one endpoint of a Python slice expression a:b on an
axis of length L: a negative index counts from the end of the axis, and the
result is clamped into the interval from 0 to L. -/
def pySliceIdx (L : ℕ) (i : ℤ) : ℕ := min (if i < 0 then i + L else i).toNat L

/-! ### Subarray embedding (embedsub_uvis)

The full UVIS chip has 2051 rows and 4096 columns.  The function computes a
placement window from the SCI-extension header keywords and assigns the
subarray planes into zero- resp. sentinel-initialised full-frame arrays by
numpy slice assignment. -/

/-- Number of rows of the full UVIS frame (y_axis in the source). -/
def yAxis : ℕ := 2051

/-- Number of columns of the full UVIS frame (x_axis in the source). -/
def xAxis : ℕ := 4096

/-- Placement window of the subarray inside the full frame, in untrimmed
integer coordinates, as computed by embedsub_uvis from the header keywords:
y_min = int(-ltv2), y_max = y_min + naxis2, x_min = int(-ltv1),
x_max = x_min + naxis1. -/
structure Window where
  yMin : ℤ
  yMax : ℤ
  xMin : ℤ
  xMax : ℤ
deriving DecidableEq

/-- Window computation of embedsub_uvis (source lines 200-204). -/
def embedWindow (naxis1 naxis2 : ℕ) (ltv1 ltv2 : ℚ) : Window where
  yMin := pyInt (-ltv2)
  yMax := pyInt (-ltv2) + naxis2
  xMin := pyInt (-ltv1)
  xMax := pyInt (-ltv1) + naxis1

/-- Slice assignment base[yMin:yMax, xMin:xMax] = sub on a rows-by-cols
array, where sub has shape n2-by-n1, with numpy semantics: slice endpoints
are normalised per axis (negative wrap-around, clamping); the source must
broadcast to the slice shape, i.e. each source axis extent must equal the
slice extent or be 1, otherwise numpy raises a ValueError (modelled as an
Except error); a source axis of extent 1 is repeated across the slice. -/
def npSliceAssign {α : Type} (rows cols : ℕ) (base : ℕ → ℕ → α) (w : Window)
    (n1 n2 : ℕ) (sub : ℕ → ℕ → α) : Except String (ℕ → ℕ → α) :=
  let a := pySliceIdx rows w.yMin
  let b := pySliceIdx rows w.yMax
  let c := pySliceIdx cols w.xMin
  let d := pySliceIdx cols w.xMax
  if (n2 = b - a ∨ n2 = 1) ∧ (n1 = d - c ∨ n1 = 1) then
    .ok fun y x =>
      if a ≤ y ∧ y < b ∧ c ≤ x ∧ x < d then
        sub (if n2 = b - a then y - a else 0) (if n1 = d - c then x - c else 0)
      else base y x
  else
    .error "could not broadcast input array into slice shape"

/-- Full-frame product of embedsub_uvis: the three embedded data planes and
the updated header keywords. -/
structure FullFrame (α : Type) where
  sci : ℕ → ℕ → α
  err : ℕ → ℕ → α
  dq : ℕ → ℕ → ℤ
  crpix1 : ℚ
  crpix2 : ℚ
  ltv1 : ℚ
  ltv2 : ℚ
  sizaxis1 : ℕ
  sizaxis2 : ℕ
  subarray : Bool

/-- Embedding of embedsub_uvis (source lines 154-232).  The subarray SCI,
ERR and DQ planes have shape naxis2-by-naxis1; the SCI and ERR full frames
are initialised to zero and the DQ full frame to the sentinel value 4; the
subarray content is copied into the placement window by numpy slice
assignment; CRPIX is shifted by the window origin, LTV is reset to zero,
SIZAXIS is set to the full-frame dimensions and the SUBARRAY flag cleared. -/
def embedsubUvis {α : Type} [Zero α] (naxis1 naxis2 : ℕ)
    (ltv1 ltv2 crpix1 crpix2 : ℚ)
    (sci err : ℕ → ℕ → α) (dq : ℕ → ℕ → ℤ) : Except String (FullFrame α) :=
  let w := embedWindow naxis1 naxis2 ltv1 ltv2
  do
  let sciF ← npSliceAssign yAxis xAxis (fun _ _ => 0) w naxis1 naxis2 sci
  let errF ← npSliceAssign yAxis xAxis (fun _ _ => 0) w naxis1 naxis2 err
  let dqF ← npSliceAssign yAxis xAxis (fun _ _ => 4) w naxis1 naxis2 dq
  return { sci := sciF, err := errF, dq := dqF,
           crpix1 := crpix1 + w.xMin, crpix2 := crpix2 + w.yMin,
           ltv1 := 0, ltv2 := 0,
           sizaxis1 := xAxis, sizaxis2 := yAxis, subarray := false }

/-- Normalising a slice endpoint that already lies inside the axis bounds
is the natural-number coercion. -/
lemma pySliceIdx_of_nonneg {L : ℕ} {i : ℤ} (h0 : 0 ≤ i) (hL : i ≤ L) :
    pySliceIdx L i = i.toNat := by
  unfold pySliceIdx
  rw [if_neg (by omega)]
  omega

/-- Characterisation of a fitting slice assignment: the source block written
at the window origin, the base array elsewhere.  Used only to state and prove
the lemma npSliceAssign_fit below. -/
def fitAssign {α : Type} (base : ℕ → ℕ → α) (w : Window) (n1 n2 : ℕ)
    (sub : ℕ → ℕ → α) : ℕ → ℕ → α := fun y x =>
  if w.yMin.toNat ≤ y ∧ y < w.yMin.toNat + n2 ∧
      w.xMin.toNat ≤ x ∧ x < w.xMin.toNat + n1 then
    sub (y - w.yMin.toNat) (x - w.xMin.toNat)
  else base y x

/-- Inside the window, fitAssign returns the source block entry. -/
lemma fitAssign_inside {α : Type} (base sub : ℕ → ℕ → α) (w : Window)
    (n1 n2 i j : ℕ) (hi : i < n2) (hj : j < n1) :
    fitAssign base w n1 n2 sub (w.yMin.toNat + i) (w.xMin.toNat + j) = sub i j := by
  unfold fitAssign
  rw [if_pos ⟨by omega, by omega, by omega, by omega⟩]
  congr 1 <;> omega

/-- Outside the window, fitAssign returns the base array entry. -/
lemma fitAssign_outside {α : Type} (base sub : ℕ → ℕ → α) (w : Window)
    (n1 n2 y x : ℕ)
    (h : ¬(w.yMin.toNat ≤ y ∧ y < w.yMin.toNat + n2 ∧
      w.xMin.toNat ≤ x ∧ x < w.xMin.toNat + n1)) :
    fitAssign base w n1 n2 sub y x = base y x := by
  unfold fitAssign
  rw [if_neg h]

/-- When the window fits inside the target array, numpy slice assignment
succeeds and writes the source block at the window origin, leaving the rest
of the base array untouched. -/
lemma npSliceAssign_fit {α : Type} (rows cols n1 n2 : ℕ) (base sub : ℕ → ℕ → α)
    (w : Window) (hy0 : 0 ≤ w.yMin) (hyE : w.yMax = w.yMin + n2)
    (hy1 : w.yMax ≤ rows) (hx0 : 0 ≤ w.xMin) (hxE : w.xMax = w.xMin + n1)
    (hx1 : w.xMax ≤ cols) :
    npSliceAssign rows cols base w n1 n2 sub = .ok (fitAssign base w n1 n2 sub) := by
  have ha : pySliceIdx rows w.yMin = w.yMin.toNat :=
    pySliceIdx_of_nonneg hy0 (by omega)
  have hb : pySliceIdx rows w.yMax = w.yMax.toNat :=
    pySliceIdx_of_nonneg (by omega) (by omega)
  have hc : pySliceIdx cols w.xMin = w.xMin.toNat :=
    pySliceIdx_of_nonneg hx0 (by omega)
  have hd : pySliceIdx cols w.xMax = w.xMax.toNat :=
    pySliceIdx_of_nonneg (by omega) (by omega)
  unfold npSliceAssign fitAssign
  simp only [ha, hb, hc, hd]
  rw [if_pos ⟨Or.inl (by omega), Or.inl (by omega)⟩]
  refine congrArg Except.ok (funext fun y => funext fun x => ?_)
  rw [if_pos (by omega : n2 = w.yMax.toNat - w.yMin.toNat),
    if_pos (by omega : n1 = w.xMax.toNat - w.xMin.toNat)]
  exact if_congr (by omega) rfl rfl

/-- C2: for every subarray whose placement window fits inside the 2051x4096
full frame, embedsub_uvis succeeds and produces full-frame planes holding,
at every pixel, the original subarray value translated by the window origin
when the pixel lies inside the window (so cropping the SCI, ERR and DQ
planes back to the window recovers the subarray data exactly), and science
0, error 0 and data-quality 4 at every pixel outside the window. -/
theorem C2_embed_roundtrip {α : Type} [Zero α] (naxis1 naxis2 : ℕ)
    (ltv1 ltv2 crpix1 crpix2 : ℚ) (sci err : ℕ → ℕ → α) (dq : ℕ → ℕ → ℤ)
    (w : Window) (hw : w = embedWindow naxis1 naxis2 ltv1 ltv2)
    (hy0 : 0 ≤ w.yMin) (hy1 : w.yMax ≤ (yAxis : ℤ))
    (hx0 : 0 ≤ w.xMin) (hx1 : w.xMax ≤ (xAxis : ℤ)) :
    ∀ y x : ℕ,
      (embedsubUvis naxis1 naxis2 ltv1 ltv2 crpix1 crpix2 sci err dq).map
          (fun ff => ff.sci y x) =
        .ok (if w.yMin ≤ (y : ℤ) ∧ (y : ℤ) < w.yMax ∧
            w.xMin ≤ (x : ℤ) ∧ (x : ℤ) < w.xMax then
          sci (y - w.yMin.toNat) (x - w.xMin.toNat) else 0) ∧
      (embedsubUvis naxis1 naxis2 ltv1 ltv2 crpix1 crpix2 sci err dq).map
          (fun ff => ff.err y x) =
        .ok (if w.yMin ≤ (y : ℤ) ∧ (y : ℤ) < w.yMax ∧
            w.xMin ≤ (x : ℤ) ∧ (x : ℤ) < w.xMax then
          err (y - w.yMin.toNat) (x - w.xMin.toNat) else 0) ∧
      (embedsubUvis naxis1 naxis2 ltv1 ltv2 crpix1 crpix2 sci err dq).map
          (fun ff => ff.dq y x) =
        .ok (if w.yMin ≤ (y : ℤ) ∧ (y : ℤ) < w.yMax ∧
            w.xMin ≤ (x : ℤ) ∧ (x : ℤ) < w.xMax then
          dq (y - w.yMin.toNat) (x - w.xMin.toNat) else 4) := by
  have hyE : w.yMax = w.yMin + naxis2 := by rw [hw]; rfl
  have hxE : w.xMax = w.xMin + naxis1 := by rw [hw]; rfl
  have hwin : embedWindow naxis1 naxis2 ltv1 ltv2 = w := hw.symm
  have hmain : embedsubUvis naxis1 naxis2 ltv1 ltv2 crpix1 crpix2 sci err dq =
      .ok (FullFrame.mk (fitAssign (fun _ _ => 0) w naxis1 naxis2 sci)
        (fitAssign (fun _ _ => 0) w naxis1 naxis2 err)
        (fitAssign (fun _ _ => 4) w naxis1 naxis2 dq)
        (crpix1 + w.xMin) (crpix2 + w.yMin) 0 0 xAxis yAxis false) := by
    simp only [embedsubUvis, hwin,
      npSliceAssign_fit yAxis xAxis naxis1 naxis2 _ sci w hy0 hyE hy1 hx0 hxE hx1,
      npSliceAssign_fit yAxis xAxis naxis1 naxis2 _ err w hy0 hyE hy1 hx0 hxE hx1,
      npSliceAssign_fit yAxis xAxis naxis1 naxis2 _ dq w hy0 hyE hy1 hx0 hxE hx1]
    rfl
  intro y x
  rw [hmain]
  refine ⟨?_, ?_, ?_⟩ <;>
    · simp only [Except.map]
      refine congrArg Except.ok ?_
      show fitAssign _ w naxis1 naxis2 _ y x = _
      unfold fitAssign
      exact if_congr (by omega) rfl rfl

/-- Closed witness for C2 at a concrete 2x2 subarray placed with window
origin at row 1, column 2: the full-frame science plane holds the subarray
value 11 at the inside pixel (2,3) and the data-quality plane holds the
sentinel 4 at the outside pixel (2000,2000). -/
theorem C2_embed_roundtrip_witness :
    (embedsubUvis 2 2 (-2) (-1) 0 0 (fun i j => (10 * i + j : ℚ))
      (fun _ _ => 6) (fun _ _ => 9)).map (fun ff => ff.sci 2 3) = .ok 11 ∧
    (embedsubUvis 2 2 (-2) (-1) 0 0 (fun i j => (10 * i + j : ℚ))
      (fun _ _ => 6) (fun _ _ => 9)).map (fun ff => ff.dq 2000 2000) = .ok 4 := by
  have h1 := (C2_embed_roundtrip 2 2 (-2) (-1) 0 0 (fun i j => (10 * i + j : ℚ))
    (fun _ _ => 6) (fun _ _ => 9) (embedWindow 2 2 (-2) (-1)) rfl
    (by decide) (by decide) (by decide) (by decide) 2 3).1
  have h2 := (C2_embed_roundtrip 2 2 (-2) (-1) 0 0 (fun i j => (10 * i + j : ℚ))
    (fun _ _ => 6) (fun _ _ => 9) (embedWindow 2 2 (-2) (-1)) rfl
    (by decide) (by decide) (by decide) (by decide) 2000 2000).2.2
  constructor
  · rw [h1, if_pos ⟨by decide, by decide, by decide, by decide⟩,
      show (embedWindow 2 2 (-2) (-1)).yMin.toNat = 1 by decide,
      show (embedWindow 2 2 (-2) (-1)).xMin.toNat = 2 by decide]
    exact congrArg Except.ok (by norm_num)
  · rw [h2, if_neg (by decide)]

/-- C7 (counterexample): the claim says the placement window origin is
obtained by rounding to the nearest integer, y_min = round(-LTV2).  For
LTV2 = -2.7 the code computes y_min = int(2.7) = 2, while rounding to the
nearest integer gives 3. -/
theorem C7_round_counterexample :
    (embedWindow 10 10 0 (-27/10)).yMin = 2 ∧
    round (-(-27/10 : ℚ)) = 3 ∧
    (embedWindow 10 10 0 (-27/10)).yMin ≠ round (-(-27/10 : ℚ)) := by
  have hfloor : (embedWindow 10 10 0 (-27/10)).yMin = 2 := by
    show pyInt (-(-27/10)) = 2
    unfold pyInt
    rw [if_pos (by norm_num), show (-(-27/10 : ℚ)) = 27/10 by norm_num,
      Int.floor_eq_iff]
    norm_num
  have hround : round (-(-27/10 : ℚ)) = 3 := by
    rw [show (-(-27/10 : ℚ)) = 27/10 by norm_num, round_eq,
      show (27 : ℚ)/10 + 1/2 = 16/5 by norm_num, Int.floor_eq_iff]
    norm_num
  exact ⟨hfloor, hround, by rw [hfloor, hround]; decide⟩

/-- C7 (amended): embedsub_uvis computes the window origin by Python
int() conversion, i.e. truncation toward zero; for the usual nonnegative
offsets -LTV1, -LTV2 this is the floor: y_min is the unique integer with
y_min ≤ -LTV2 < y_min + 1, y_max = y_min + NAXIS2, and likewise in x. -/
theorem C7_window_truncation (naxis1 naxis2 : ℕ) (ltv1 ltv2 : ℚ)
    (h2 : 0 ≤ -ltv2) (h1 : 0 ≤ -ltv1) :
    ((embedWindow naxis1 naxis2 ltv1 ltv2).yMin : ℚ) ≤ -ltv2 ∧
    -ltv2 < (embedWindow naxis1 naxis2 ltv1 ltv2).yMin + 1 ∧
    (embedWindow naxis1 naxis2 ltv1 ltv2).yMax =
      (embedWindow naxis1 naxis2 ltv1 ltv2).yMin + naxis2 ∧
    ((embedWindow naxis1 naxis2 ltv1 ltv2).xMin : ℚ) ≤ -ltv1 ∧
    -ltv1 < (embedWindow naxis1 naxis2 ltv1 ltv2).xMin + 1 ∧
    (embedWindow naxis1 naxis2 ltv1 ltv2).xMax =
      (embedWindow naxis1 naxis2 ltv1 ltv2).xMin + naxis1 := by
  have e2 : (embedWindow naxis1 naxis2 ltv1 ltv2).yMin = ⌊-ltv2⌋ := by
    show pyInt (-ltv2) = ⌊-ltv2⌋
    unfold pyInt
    rw [if_pos h2]
  have e1 : (embedWindow naxis1 naxis2 ltv1 ltv2).xMin = ⌊-ltv1⌋ := by
    show pyInt (-ltv1) = ⌊-ltv1⌋
    unfold pyInt
    rw [if_pos h1]
  refine ⟨?_, ?_, rfl, ?_, ?_, rfl⟩
  · rw [e2]; exact_mod_cast Int.floor_le (-ltv2)
  · rw [e2]; exact_mod_cast Int.lt_floor_add_one (-ltv2)
  · rw [e1]; exact_mod_cast Int.floor_le (-ltv1)
  · rw [e1]; exact_mod_cast Int.lt_floor_add_one (-ltv1)

/-- Closed witness for C7_window_truncation at LTV2 = -5/2, LTV1 = -1/2. -/
theorem C7_window_truncation_witness :
    (0 ≤ -(-5/2 : ℚ) ∧ 0 ≤ -(-1/2 : ℚ)) ∧
    (((embedWindow 4 3 (-1/2) (-5/2)).yMin : ℚ) ≤ -(-5/2) ∧
      -(-5/2 : ℚ) < (embedWindow 4 3 (-1/2) (-5/2)).yMin + 1 ∧
      (embedWindow 4 3 (-1/2) (-5/2)).yMax =
        (embedWindow 4 3 (-1/2) (-5/2)).yMin + 3 ∧
      ((embedWindow 4 3 (-1/2) (-5/2)).xMin : ℚ) ≤ -(-1/2) ∧
      -(-1/2 : ℚ) < (embedWindow 4 3 (-1/2) (-5/2)).xMin + 1 ∧
      (embedWindow 4 3 (-1/2) (-5/2)).xMax =
        (embedWindow 4 3 (-1/2) (-5/2)).xMin + 4) :=
  ⟨⟨by norm_num, by norm_num⟩,
    C7_window_truncation 4 3 (-1/2) (-5/2) (by norm_num) (by norm_num)⟩

/-- C8 (counterexample): the claim says every placement window exceeding
the full-frame bounds, including negative window origins, makes
embedsub_uvis fail with a reported error.  For LTV2 = 5, NAXIS2 = 3,
LTV1 = 0, NAXIS1 = 2 the window is y range -5 to -2, entirely outside the
frame, yet Python slice semantics wrap the negative indices around: the
call succeeds and silently writes the subarray at rows 2046-2048. -/
theorem C8_silent_wrap_counterexample :
    (embedWindow 2 3 0 5).yMin = -5 ∧ (embedWindow 2 3 0 5).yMax = -2 ∧
    (embedsubUvis 2 3 0 5 0 0 (fun _ _ => (7 : ℚ)) (fun _ _ => 7)
      (fun _ _ => 9)).map (fun ff => ff.sci 2046 0) = .ok 7 ∧
    (embedsubUvis 2 3 0 5 0 0 (fun _ _ => (7 : ℚ)) (fun _ _ => 7)
      (fun _ _ => 9)).map (fun ff => ff.sci 2045 0) = .ok 0 ∧
    (embedsubUvis 2 3 0 5 0 0 (fun _ _ => (7 : ℚ)) (fun _ _ => 7)
      (fun _ _ => 9)).map (fun ff => ff.dq 2046 1) = .ok 9 := by
  refine ⟨by decide, by decide, ?_, ?_, ?_⟩ <;> rfl

/-- C8 (amended): a placement window with nonnegative origins that exceeds
the full-frame upper bounds, for a subarray of at least 2 rows and 2
columns, makes embedsub_uvis fail with an error (the numpy broadcast
mismatch); windows with negative coordinates may instead wrap around
silently. -/
theorem C8_overflow_error {α : Type} [Zero α] (naxis1 naxis2 : ℕ)
    (ltv1 ltv2 crpix1 crpix2 : ℚ) (sci err : ℕ → ℕ → α) (dq : ℕ → ℕ → ℤ)
    (w : Window) (hw : w = embedWindow naxis1 naxis2 ltv1 ltv2)
    (hy0 : 0 ≤ w.yMin) (hx0 : 0 ≤ w.xMin)
    (h1 : 2 ≤ naxis1) (h2 : 2 ≤ naxis2)
    (hover : (yAxis : ℤ) < w.yMax ∨ (xAxis : ℤ) < w.xMax) :
    embedsubUvis naxis1 naxis2 ltv1 ltv2 crpix1 crpix2 sci err dq =
      .error "could not broadcast input array into slice shape" := by
  have hyE : w.yMax = w.yMin + naxis2 := by rw [hw]; rfl
  have hxE : w.xMax = w.xMin + naxis1 := by rw [hw]; rfl
  have hwin : embedWindow naxis1 naxis2 ltv1 ltv2 = w := hw.symm
  have ha : pySliceIdx yAxis w.yMin = min w.yMin.toNat yAxis := by
    unfold pySliceIdx
    rw [if_neg (by omega)]
  have hb : pySliceIdx yAxis w.yMax = min w.yMax.toNat yAxis := by
    unfold pySliceIdx
    rw [if_neg (by omega)]
  have hc : pySliceIdx xAxis w.xMin = min w.xMin.toNat xAxis := by
    unfold pySliceIdx
    rw [if_neg (by omega)]
  have hd : pySliceIdx xAxis w.xMax = min w.xMax.toNat xAxis := by
    unfold pySliceIdx
    rw [if_neg (by omega)]
  have hfail : npSliceAssign yAxis xAxis (fun _ _ => (0 : α)) w naxis1 naxis2 sci =
      .error "could not broadcast input array into slice shape" := by
    unfold npSliceAssign
    simp only [ha, hb, hc, hd]
    rw [if_neg ?_]
    unfold yAxis xAxis at hover ⊢
    omega
  simp only [embedsubUvis, hwin, hfail]
  rfl

/-- Closed witness for C8_overflow_error: a 3-row subarray whose window
starts at row 2050 overflows the 2051-row frame and raises the broadcast
error. -/
theorem C8_overflow_error_witness :
    embedsubUvis 2 3 0 (-2050) 0 0 (fun _ _ => (7 : ℚ)) (fun _ _ => 7)
      (fun _ _ => 9) =
      .error "could not broadcast input array into slice shape" :=
  C8_overflow_error 2 3 0 (-2050) 0 0 (fun _ _ => 7) (fun _ _ => 7)
    (fun _ _ => 9) (embedWindow 2 3 0 (-2050)) rfl (by decide) (by decide)
    (by decide) (by decide) (Or.inl (by decide))

/-! ### Temporal cosmic-ray removal (remove_cosmic_rays_time)

The time series is a stack of n images, modelled as a total function from
(exposure, row, column) to an exact real value; the outlier mask is the
parallel Boolean stack.  One loop iteration computes the per-pixel median
and root-mean-square deviation over the stack, flags pixels deviating by
more than n_sigma times the RMSE, ORs the flags into the running mask and
replaces flagged pixels by the median. -/

/-- Embedding of np.median of a 1-D array: sort ascending, take the middle
element (odd length) or the mean of the two middle elements (even length). -/
noncomputable def npMedian (l : List ℝ) : ℝ :=
  let s := l.mergeSort (fun a b => decide (a ≤ b))
  let n := l.length
  if n % 2 = 1 then s.getD (n / 2) 0
  else (s.getD (n / 2 - 1) 0 + s.getD (n / 2) 0) / 2

/-- Per-pixel median image of a stack of n exposures (median along axis 0). -/
noncomputable def crMedian (n : ℕ) (ts : ℕ → ℕ → ℕ → ℝ) (y x : ℕ) : ℝ :=
  npMedian ((List.range n).map (fun i => ts i y x))

/-- Per-pixel root mean squared error image of a stack of n exposures:
sqrt of the mean over exposures of the squared deviation from the median
image (source line 61). -/
noncomputable def crRmse (n : ℕ) (ts : ℕ → ℕ → ℕ → ℝ) (y x : ℕ) : ℝ :=
  Real.sqrt ((((List.range n).map
    (fun i => (ts i y x - crMedian n ts y x) ^ 2)).sum) / n)

/-- Temporal outlier test (source line 65): the absolute deviation from the
median image exceeds n_sigma times the RMSE image. -/
noncomputable def crOutlier (nSigma : ℝ) (n : ℕ) (ts : ℕ → ℕ → ℕ → ℝ)
    (i y x : ℕ) : Bool :=
  decide (nSigma * crRmse n ts y x < |ts i y x - crMedian n ts y x|)

/-- One iteration of the temporal cosmic-ray loop (source lines 57-73):
flag outliers, OR them into the running mask, and replace flagged pixels
with the median value. -/
noncomputable def crStep (nSigma : ℝ) (n : ℕ)
    (state : (ℕ → ℕ → ℕ → ℝ) × (ℕ → ℕ → ℕ → Bool)) :
    (ℕ → ℕ → ℕ → ℝ) × (ℕ → ℕ → ℕ → Bool) :=
  (fun i y x => if crOutlier nSigma n state.1 i y x then crMedian n state.1 y x
    else state.1 i y x,
   fun i y x => state.2 i y x || crOutlier nSigma n state.1 i y x)

/-- Embedding of remove_cosmic_rays_time (source lines 31-75): iterate the
loop body n_iter times starting from the input stack and the all-false
mask; returns the corrected stack and the cumulative temporal outlier mask. -/
noncomputable def removeCosmicRaysTime (ts : ℕ → ℕ → ℕ → ℝ) (n : ℕ)
    (nSigma : ℝ) (nIter : ℕ) : (ℕ → ℕ → ℕ → ℝ) × (ℕ → ℕ → ℕ → Bool) :=
  (crStep nSigma n)^[nIter] (ts, fun _ _ _ => false)

/-- C1: for every image stack and every n_sigma > 0, the cumulative outlier
mask after iteration k of remove_cosmic_rays_time is a superset of the mask
after iteration k-1, for all 1 <= k <= n_iter: flags accumulate by logical
OR, so a pixel once flagged stays flagged. -/
theorem C1_mask_monotone (ts : ℕ → ℕ → ℕ → ℝ) (n : ℕ) (nSigma : ℝ)
    (nIter k : ℕ) (hs : 0 < nSigma) (hk1 : 1 ≤ k) (hk2 : k ≤ nIter) :
    ∀ i y x, (removeCosmicRaysTime ts n nSigma (k - 1)).2 i y x = true →
      (removeCosmicRaysTime ts n nSigma k).2 i y x = true := by
  intro i y x h
  obtain ⟨j, rfl⟩ : ∃ j, k = j + 1 := ⟨k - 1, by omega⟩
  rw [Nat.add_sub_cancel] at h
  unfold removeCosmicRaysTime at h ⊢
  rw [Function.iterate_succ_apply']
  simp only [crStep, Bool.or_eq_true]
  exact Or.inl h

/-- Closed witness for C1: a 3-exposure stack whose third exposure holds a
cosmic ray of value 100 at every pixel against a background of 0.  With
n_sigma = 1 the pixel (2,0,0) is flagged in iteration 1, and by
C1_mask_monotone the cumulative mask still holds it after iteration k = 2. -/
theorem C1_mask_monotone_witness :
    (removeCosmicRaysTime (fun i _ _ => if i = 2 then (100 : ℝ) else 0)
      3 1 (2 - 1)).2 2 0 0 = true ∧
    (removeCosmicRaysTime (fun i _ _ => if i = 2 then (100 : ℝ) else 0)
      3 1 2).2 2 0 0 = true := by
  have hm : crMedian 3 (fun i _ _ => if i = 2 then (100 : ℝ) else 0) 0 0 = 0 := by
    unfold crMedian npMedian
    rw [show List.range 3 = [0, 1, 2] from rfl,
      show List.map (fun i => (fun i _ _ => if i = 2 then (100 : ℝ) else 0) i 0 0)
        [0, 1, 2] = [0, 0, 100] by norm_num,
      List.mergeSort_of_sorted (by simp)]
    norm_num
  have hr : crRmse 3 (fun i _ _ => if i = 2 then (100 : ℝ) else 0) 0 0 =
      Real.sqrt (10000 / 3) := by
    unfold crRmse
    rw [hm, show List.range 3 = [0, 1, 2] from rfl]
    norm_num
  have ha : (removeCosmicRaysTime (fun i _ _ => if i = 2 then (100 : ℝ) else 0)
      3 1 (2 - 1)).2 2 0 0 = true := by
    unfold removeCosmicRaysTime
    rw [show (2 : ℕ) - 1 = 1 from rfl, Function.iterate_one]
    simp only [crStep, crOutlier, Bool.false_or, decide_eq_true_eq]
    rw [hm, hr]
    rw [if_pos trivial, one_mul, sub_zero,
      show |(100 : ℝ)| = 100 by norm_num,
      Real.sqrt_lt (by norm_num) (by norm_num)]
    norm_num
  exact ⟨ha, C1_mask_monotone (fun i _ _ => if i = 2 then (100 : ℝ) else 0)
    3 1 2 2 (by norm_num) (by norm_num) (le_refl 2) 2 0 0 ha⟩

/-! ### Local standard-deviation filter (ndi_std_filter)

scipy.ndimage.uniform_filter computes the moving-window mean over a square
kernel of side s, using the default reflect boundary mode; ndi_std_filter
combines the mean of the squared input and the squared mean of the input
into a local population standard deviation. -/

/-- Reflect-mode boundary index of scipy.ndimage (mode 'reflect', pattern
d c b a | a b c d | d c b a): map an arbitrary integer index into the valid
range of an axis of length n. -/
def reflectIdx (n : ℕ) (t : ℤ) : ℕ :=
  if n = 0 then 0
  else
    let m := (t % (2 * n)).toNat
    if m < n then m else 2 * n - 1 - m

/-- Embedding of scipy.ndimage.uniform_filter for a 2-D input of shape
h x w with square kernel of side s: the mean of the s*s window centred at
the pixel (offsets from -(s/2) to s-1-(s/2) on each axis), with reflect
boundary handling. -/
noncomputable def uniformFilter (h w : ℕ) (input : ℕ → ℕ → ℝ) (s : ℕ)
    (y x : ℕ) : ℝ :=
  (∑ j ∈ Finset.range s, ∑ k ∈ Finset.range s,
    input (reflectIdx h ((y : ℤ) + j - (s / 2 : ℕ)))
      (reflectIdx w ((x : ℤ) + k - (s / 2 : ℕ)))) / (s : ℝ) ^ 2

/-- Embedding of ndi_std_filter (source lines 78-103): mean filter of the
squared input minus the square of the mean filter of the input, then the
square root, with no clamping of the radicand. -/
noncomputable def ndiStdFilter (h w : ℕ) (input : ℕ → ℕ → ℝ) (s : ℕ)
    (y x : ℕ) : ℝ :=
  Real.sqrt (uniformFilter h w (fun a b => input a b ^ 2) s y x -
    uniformFilter h w input s y x ^ 2)

/-- In exact arithmetic the radicand of ndi_std_filter is a population
variance over the window values and hence nonnegative for every input,
kernel size and pixel, by the Cauchy-Schwarz inequality.  The clamping that
the specification requires of the expression mean of squares minus squared
mean can therefore only matter under floating-point rounding, which this
exact embedding does not model. -/
lemma uniformFilter_radicand_nonneg (h w : ℕ) (input : ℕ → ℕ → ℝ)
    (s y x : ℕ) :
    0 ≤ uniformFilter h w (fun a b => input a b ^ 2) s y x -
      uniformFilter h w input s y x ^ 2 := by
  unfold uniformFilter
  rcases Nat.eq_zero_or_pos s with hs | hs
  · subst hs
    simp
  · have hn : (0 : ℝ) < (s : ℝ) ^ 2 := by positivity
    set F : ℕ × ℕ → ℝ := fun p =>
      input (reflectIdx h ((y : ℤ) + p.1 - (s / 2 : ℕ)))
        (reflectIdx w ((x : ℤ) + p.2 - (s / 2 : ℕ))) with hF
    have e1 : ∑ j ∈ Finset.range s, ∑ k ∈ Finset.range s,
        input (reflectIdx h ((y : ℤ) + j - (s / 2 : ℕ)))
          (reflectIdx w ((x : ℤ) + k - (s / 2 : ℕ))) =
        ∑ p ∈ Finset.range s ×ˢ Finset.range s, F p :=
      (Finset.sum_product (Finset.range s) (Finset.range s) F).symm

    have e2 : ∑ j ∈ Finset.range s, ∑ k ∈ Finset.range s,
        input (reflectIdx h ((y : ℤ) + j - (s / 2 : ℕ)))
          (reflectIdx w ((x : ℤ) + k - (s / 2 : ℕ))) ^ 2 =
        ∑ p ∈ Finset.range s ×ˢ Finset.range s, F p ^ 2 :=
      (Finset.sum_product (Finset.range s) (Finset.range s) (fun p => F p ^ 2)).symm

    rw [e1, e2]
    have key : (∑ p ∈ Finset.range s ×ˢ Finset.range s, F p) ^ 2 ≤
        (s : ℝ) ^ 2 * ∑ p ∈ Finset.range s ×ˢ Finset.range s, F p ^ 2 := by
      have := sq_sum_le_card_mul_sum_sq
        (s := Finset.range s ×ˢ Finset.range s) (f := F)
      simpa [Finset.card_product, sq, Nat.cast_mul] using this
    rw [sub_nonneg, div_pow, div_le_div_iff₀ (by positivity) hn]
    nlinarith [Finset.sum_nonneg (s := Finset.range s ×ˢ Finset.range s)
      (f := fun p => F p ^ 2) (fun p _ => sq_nonneg (F p)), key, hn.le]

/-! ### Light curve synthesis (make_light_curve)

A counts time series is a list of rows, one row of per-bin counts per
exposure, co-indexed with the wavelength array.  make_light_curve selects
the wavelength bins strictly inside (wl_min, wl_max) on the transposed
array, sums them per exposure, and attaches the relative Poisson error
sqrt(counts)/counts.  The error values live in Option: none models the
non-finite IEEE results (NaN from a negative square root or zero-over-zero,
infinity from division by zero) that exact arithmetic cannot represent. -/

/-- numpy boolean-mask selection along the first axis of an array: keep the
rows whose mask entry is true (the mask is co-indexed with the rows). -/
def npBoolSelect {α : Type} (mask : List Bool) (rows : List α) : List α :=
  (rows.zip mask).filterMap (fun p => if p.2 then some p.1 else none)

/-- Transpose of a rectangular 2-D numpy array given as a list of rows; the
column count is read off the first row, as numpy reads it off the shape. -/
def npTranspose (rows : List (List ℝ)) : List (List ℝ) :=
  (List.range (rows.headD []).length).map (fun j => rows.map (fun r => r.getD j 0))

/-- numpy sum along axis 0 of a 2-D array with the given column count:
the list of column sums, all zero when there are no rows. -/
def npSumAxis0 (width : ℕ) (rows : List (List ℝ)) : List ℝ :=
  (List.range width).map (fun j => (rows.map (fun r => r.getD j 0)).sum)

/-- Model of numpy sqrt at an exact real argument: NaN (none) when the
argument is negative. -/
noncomputable def npSqrt (x : ℝ) : Option ℝ :=
  if x < 0 then none else some (Real.sqrt x)

/-- Model of numpy division at exact real arguments: a zero denominator
gives a non-finite result (NaN or infinity, modelled none), and a
non-finite numerator propagates. -/
noncomputable def npDiv (a : Option ℝ) (b : ℝ) : Option ℝ :=
  if b = 0 then none else a.map (fun v => v / b)

/-- Embedding of make_light_curve (source lines 343-375): mask the
wavelength bins strictly inside (wl_min, wl_max), select those rows of the
transposed counts array, sum along axis 0, and attach the relative error
sqrt(lc_counts)/lc_counts per exposure. -/
noncomputable def makeLightCurve (wavelength : List ℚ) (ts : List (List ℝ))
    (wlMin wlMax : ℚ) : List ℝ × List (Option ℝ) :=
  let maskWl := wavelength.map (fun wl => decide (wlMin < wl ∧ wl < wlMax))
  let lcCounts := npSumAxis0 ts.length (npBoolSelect maskWl (npTranspose ts))
  let lcCountsErr := lcCounts.map (fun c => npDiv (npSqrt c) c)
  (lcCounts, lcCountsErr)

/-- Boolean selection of mapped rows by a mapped mask over the same index
list is selection by list filtering. -/
lemma npBoolSelect_map {α β : Type} (l : List α) (q : α → Bool) (g : α → β) :
    npBoolSelect (l.map q) (l.map g) = (l.filter q).map g := by
  induction l with
  | nil => rfl
  | cons a t ih =>
    cases hq : q a <;>
      simp [npBoolSelect, List.filter_cons, hq] <;>
      simpa [npBoolSelect] using ih

/-- Boolean selection of a list by a mask mapped from itself is filtering. -/
lemma npBoolSelect_map_self {α : Type} (l : List α) (q : α → Bool) :
    npBoolSelect (l.map q) l = l.filter q := by
  have h := npBoolSelect_map l q id
  rw [List.map_id] at h
  rw [h, List.map_id]

/-- Every list map is a map over the index range via getD. -/
lemma map_eq_range_map {α β : Type} (l : List α) (f : α → β) (d : α) :
    l.map f = (List.range l.length).map (fun j => f (l.getD j d)) := by
  refine List.ext_getElem (by simp) ?_
  intro j h1 h2
  simp only [List.getElem_map, List.getElem_range]
  rw [List.getD_eq_getElem l d (by simpa using h2)]

/-- Element j of a map over an index range, for j in range. -/
lemma getD_range_map {β : Type} (n : ℕ) (f : ℕ → β) (e : ℕ) (d : β)
    (he : e < n) :
    (((List.range n).map f).getD e d) = f e := by
  rw [List.getD_eq_getElem _ d (by simpa using he)]
  simp

/-- C4: make_light_curve selects exactly the wavelength bins strictly
inside (wl_min, wl_max), exclusive at both bounds; lc_counts and
lc_counts_err both have length equal to the number of exposures for all
filter bounds; and bounds that exclude every bin yield all-zero sums
rather than an error. -/
theorem C4_light_curve (wavelength : List ℚ) (ts : List (List ℝ))
    (wlMin wlMax : ℚ) (hne : ts ≠ [])
    (hrect : ∀ r ∈ ts, r.length = wavelength.length) :
    (makeLightCurve wavelength ts wlMin wlMax).1.length = ts.length ∧
    (makeLightCurve wavelength ts wlMin wlMax).2.length = ts.length ∧
    (∀ e, e < ts.length →
      (makeLightCurve wavelength ts wlMin wlMax).1.getD e 0 =
        (((List.range wavelength.length).filter (fun j =>
            decide (wlMin < wavelength.getD j 0 ∧ wavelength.getD j 0 < wlMax))).map
          (fun j => (ts.getD e []).getD j 0)).sum) ∧
    ((∀ j, j < wavelength.length →
        ¬(wlMin < wavelength.getD j 0 ∧ wavelength.getD j 0 < wlMax)) →
      (makeLightCurve wavelength ts wlMin wlMax).1 =
        List.replicate ts.length 0) := by
  have hnB : (ts.headD []).length = wavelength.length := by
    cases ts with
    | nil => exact absurd rfl hne
    | cons r t => exact hrect r (by simp)
  have hsel : npBoolSelect
      (wavelength.map (fun wl => decide (wlMin < wl ∧ wl < wlMax)))
      (npTranspose ts) =
      ((List.range wavelength.length).filter (fun j =>
        decide (wlMin < wavelength.getD j 0 ∧ wavelength.getD j 0 < wlMax))).map
        (fun j => ts.map (fun r => r.getD j 0)) := by
    unfold npTranspose
    rw [hnB, map_eq_range_map wavelength
      (fun wl => decide (wlMin < wl ∧ wl < wlMax)) 0]
    exact npBoolSelect_map (List.range wavelength.length) _ _
  have hcol : ∀ e, e < ts.length → ∀ j,
      ((ts.map (fun r => r.getD j 0)).getD e 0) = (ts.getD e []).getD j 0 := by
    intro e he j
    rw [List.getD_eq_getElem _ _ (by simpa using he), List.getElem_map,
      List.getD_eq_getElem ts [] he]
  refine ⟨by simp [makeLightCurve, npSumAxis0], by simp [makeLightCurve, npSumAxis0],
    ?_, ?_⟩
  · intro e he
    show (npSumAxis0 ts.length _).getD e 0 = _
    unfold npSumAxis0
    rw [getD_range_map ts.length _ e 0 he, hsel, List.map_map]
    refine congrArg List.sum (List.map_congr_left ?_)
    intro j _
    exact hcol e he j
  · intro hnone
    have hfil : (List.range wavelength.length).filter (fun j =>
        decide (wlMin < wavelength.getD j 0 ∧ wavelength.getD j 0 < wlMax)) = [] := by
      rw [List.filter_eq_nil_iff]
      intro j hj
      simpa using hnone j (List.mem_range.mp hj)
    show npSumAxis0 ts.length _ = _
    rw [hsel, hfil]
    unfold npSumAxis0
    simp [List.map_const']

/-- Closed witness for C4 at two wavelength bins 3000 and 5000, both inside
the default bounds, and one exposure with counts 1 and 2. -/
theorem C4_light_curve_witness :
    (makeLightCurve [3000, 5000] [[1, 2]] 2000 8000).1.length = 1 ∧
    (makeLightCurve [3000, 5000] [[1, 2]] 2000 8000).2.length = 1 ∧
    (makeLightCurve [3000, 5000] [[1, 2]] 2000 8000).1.getD 0 0 =
      (((List.range (List.length [(3000 : ℚ), 5000])).filter (fun j =>
          decide ((2000 : ℚ) < [(3000 : ℚ), 5000].getD j 0 ∧
            [(3000 : ℚ), 5000].getD j 0 < 8000))).map
        (fun j => (([[(1 : ℝ), 2]].getD 0 []).getD j 0))).sum :=
  ⟨(C4_light_curve [3000, 5000] [[1, 2]] 2000 8000 (by simp) (by simp)).1,
    (C4_light_curve [3000, 5000] [[1, 2]] 2000 8000 (by simp) (by simp)).2.1,
    (C4_light_curve [3000, 5000] [[1, 2]] 2000 8000 (by simp) (by simp)).2.2.1
      0 (by simp)⟩

/-- C10 (counterexample): the claim says make_light_curve guards or clamps
the relative-error division sqrt(lc_counts)/lc_counts so that no NaN or Inf
reaches lc_counts_err.  For a single exposure whose only in-band count is
0, the band-integrated sum is 0 and the unguarded 0/0 produces NaN
(modelled none) in lc_counts_err. -/
theorem C10_nan_counterexample :
    (makeLightCurve [3000] [[0]] 2000 8000).1 = [0] ∧
    (makeLightCurve [3000] [[0]] 2000 8000).2 = [none] := by
  have hmask : ([(3000 : ℚ)].map (fun wl => decide ((2000 : ℚ) < wl ∧ wl < 8000))) =
      [true] := by decide
  have h1 : (makeLightCurve [3000] [[0]] 2000 8000).1 = [0] := by
    show npSumAxis0 (List.length [[(0 : ℝ)]]) _ = _
    rw [hmask]
    simp [npSumAxis0, npBoolSelect, npTranspose]
  refine ⟨h1, ?_⟩
  show (makeLightCurve [3000] [[0]] 2000 8000).1.map _ = _
  rw [h1]
  simp [npDiv]

/-- C10 (amended): make_light_curve applies no guard to the relative-error
division: lc_counts_err[e] is sqrt(c)/c when the band-integrated sum c of
exposure e is positive, and a non-finite value (NaN or Inf, modelled none)
whenever c is zero or negative. -/
theorem C10_err_unguarded (wavelength : List ℚ) (ts : List (List ℝ))
    (wlMin wlMax : ℚ) :
    (makeLightCurve wavelength ts wlMin wlMax).2 =
      (makeLightCurve wavelength ts wlMin wlMax).1.map
        (fun c => if 0 < c then some (Real.sqrt c / c) else none) := by
  show (makeLightCurve wavelength ts wlMin wlMax).1.map _ = _
  refine List.map_congr_left ?_
  intro c _
  unfold npDiv npSqrt
  rcases lt_trichotomy c 0 with hc | hc | hc
  · rw [if_neg (ne_of_lt hc), if_pos hc, Option.map_none',
      if_neg (not_lt.mpr hc.le)]
  · subst hc
    rw [if_pos rfl, if_neg (lt_irrefl 0)]
  · rw [if_neg (ne_of_gt hc), if_neg (not_lt.mpr hc.le), Option.map_some',
      if_pos hc]

/-! ### Aperture spectrum extraction (extract_spectrum)

The full-frame science and error planes are total functions on an H x W
pixel grid; the aperture bounds y_min, y_max are scalars cast by Python
int(), and the column range is the integer span of the trace x positions.
The 2-D planes are sliced with Python slice semantics and summed along the
row axis. -/

/-- Embedding of np.min on a 1-D array (the source never applies it to an
empty array; an empty list yields the junk value 0). -/
def npMinQ (l : List ℚ) : ℚ :=
  match l with
  | [] => 0
  | x :: xs => xs.foldl min x

/-- Embedding of np.max on a 1-D array (the source never applies it to an
empty array; an empty list yields the junk value 0). -/
def npMaxQ (l : List ℚ) : ℚ :=
  match l with
  | [] => 0
  | x :: xs => xs.foldl max x

/-- Embedding of extract_spectrum (source lines 302-340).  The data and
error planes of the full-frame file are data and errP with H rows and W
columns; rows int(y_min) to int(y_max) and columns int(min(trace_x)) to
int(max(trace_x)) + 1 are sliced with Python slice normalisation, counts
are the per-column sums of the sliced science values and counts_err the
per-column square roots of the sums of squared sliced error values. -/
noncomputable def extractSpectrum (H W : ℕ) (data errP : ℕ → ℕ → ℝ)
    (yMin yMax : ℚ) (traceX : List ℚ) : List ℝ × List ℝ :=
  let a := pySliceIdx H (pyInt yMin)
  let b := pySliceIdx H (pyInt yMax)
  let c := pySliceIdx W (pyInt (npMinQ traceX))
  let d := pySliceIdx W (pyInt (npMaxQ traceX) + 1)
  ((List.range (d - c)).map (fun j =>
      ((List.range (b - a)).map (fun r => data (a + r) (c + j))).sum),
   (List.range (d - c)).map (fun j =>
      Real.sqrt (((List.range (b - a)).map
        (fun r => errP (a + r) (c + j) ^ 2)).sum)))

/-- Folding min over a list never exceeds the start value. -/
lemma foldl_min_le (x : ℚ) (xs : List ℚ) : xs.foldl min x ≤ x := by
  induction xs generalizing x with
  | nil => exact le_refl x
  | cons a t ih => exact le_trans (ih (min x a)) (min_le_left x a)

/-- Folding max over a list is at least the start value. -/
lemma le_foldl_max (x : ℚ) (xs : List ℚ) : x ≤ xs.foldl max x := by
  induction xs generalizing x with
  | nil => exact le_refl x
  | cons a t ih => exact le_trans (le_max_left x a) (ih (max x a))

/-- The minimum of an array never exceeds its maximum. -/
lemma npMinQ_le_npMaxQ (l : List ℚ) : npMinQ l ≤ npMaxQ l := by
  cases l with
  | nil => exact le_refl 0
  | cons x xs => exact le_trans (foldl_min_le x xs) (le_foldl_max x xs)

/-- Python int() conversion is monotone. -/
lemma pyInt_mono {a b : ℚ} (h : a ≤ b) : pyInt a ≤ pyInt b := by
  unfold pyInt
  split_ifs with h1 h2 h2
  · exact Int.floor_le_floor h
  · exact absurd (le_trans h1 h) h2
  · refine le_trans (Int.ceil_le.mpr ?_) (Int.floor_nonneg.mpr h2)
    exact_mod_cast le_of_lt (lt_of_not_le h1)
  · exact Int.ceil_le_ceil h

/-- C3 (counterexample): the claim says the outputs of extract_spectrum
have length int(max(trace_x)) - int(min(trace_x)) + 1 for every full-frame
pair and every trace_x.  For a trace reaching beyond the 4096-column frame,
Python slice clamping shortens the aperture: trace x positions 4000 and
5000 give span 1001 but output length 96. -/
theorem C3_length_counterexample :
    (extractSpectrum 2051 4096 (fun _ _ => 0) (fun _ _ => 0) 10 20
      [(4000 : ℚ), 5000]).1.length = 96 ∧
    pyInt (npMaxQ [(4000 : ℚ), 5000]) - pyInt (npMinQ [(4000 : ℚ), 5000]) + 1 =
      (1001 : ℤ) ∧
    ((extractSpectrum 2051 4096 (fun _ _ => 0) (fun _ _ => 0) 10 20
      [(4000 : ℚ), 5000]).1.length : ℤ) ≠
      pyInt (npMaxQ [(4000 : ℚ), 5000]) - pyInt (npMinQ [(4000 : ℚ), 5000]) + 1 := by
  have h1 : (extractSpectrum 2051 4096 (fun _ _ => 0) (fun _ _ => 0) 10 20
      [(4000 : ℚ), 5000]).1.length = 96 := by
    simp only [extractSpectrum, List.length_map, List.length_range]
    decide
  have h2 : pyInt (npMaxQ [(4000 : ℚ), 5000]) - pyInt (npMinQ [(4000 : ℚ), 5000]) + 1 =
      (1001 : ℤ) := by decide
  exact ⟨h1, h2, by rw [h1, h2]; decide⟩

/-- C3 (amended): when the whole aperture rectangle lies inside the
full-frame bounds, the outputs of extract_spectrum have length
int(max(trace_x)) - int(min(trace_x)) + 1, the pixel span of the trace
regardless of the number of elements of trace_x, counts[j] is the sum of
the science values over rows int(y_min) to int(y_max) - 1 of aperture
column j, and counts_err[j] is the square root of the sum of the squared
error values over the same rows (quadrature sum). -/
theorem C3_extract_correct (H W : ℕ) (data errP : ℕ → ℕ → ℝ)
    (yMin yMax : ℚ) (traceX : List ℚ)
    (hy0 : 0 ≤ pyInt yMin) (hyH : pyInt yMin ≤ (H : ℤ))
    (hy0' : 0 ≤ pyInt yMax) (hyH' : pyInt yMax ≤ (H : ℤ))
    (hx0 : 0 ≤ pyInt (npMinQ traceX))
    (hxW : pyInt (npMaxQ traceX) + 1 ≤ (W : ℤ)) :
    ((extractSpectrum H W data errP yMin yMax traceX).1.length : ℤ) =
      pyInt (npMaxQ traceX) - pyInt (npMinQ traceX) + 1 ∧
    ((extractSpectrum H W data errP yMin yMax traceX).2.length : ℤ) =
      pyInt (npMaxQ traceX) - pyInt (npMinQ traceX) + 1 ∧
    (∀ j, j < (extractSpectrum H W data errP yMin yMax traceX).1.length →
      (extractSpectrum H W data errP yMin yMax traceX).1.getD j 0 =
        ((List.range ((pyInt yMax).toNat - (pyInt yMin).toNat)).map
          (fun r => data ((pyInt yMin).toNat + r)
            ((pyInt (npMinQ traceX)).toNat + j))).sum ∧
      (extractSpectrum H W data errP yMin yMax traceX).2.getD j 0 =
        Real.sqrt (((List.range ((pyInt yMax).toNat - (pyInt yMin).toNat)).map
          (fun r => errP ((pyInt yMin).toNat + r)
            ((pyInt (npMinQ traceX)).toNat + j) ^ 2)).sum)) := by
  have hmono : pyInt (npMinQ traceX) ≤ pyInt (npMaxQ traceX) :=
    pyInt_mono (npMinQ_le_npMaxQ traceX)
  have ha : pySliceIdx H (pyInt yMin) = (pyInt yMin).toNat :=
    pySliceIdx_of_nonneg hy0 hyH
  have hb : pySliceIdx H (pyInt yMax) = (pyInt yMax).toNat :=
    pySliceIdx_of_nonneg hy0' hyH'
  have hc : pySliceIdx W (pyInt (npMinQ traceX)) = (pyInt (npMinQ traceX)).toNat :=
    pySliceIdx_of_nonneg hx0 (by omega)
  have hd : pySliceIdx W (pyInt (npMaxQ traceX) + 1) =
      (pyInt (npMaxQ traceX) + 1).toNat :=
    pySliceIdx_of_nonneg (by omega) hxW
  refine ⟨?_, ?_, ?_⟩
  · simp only [extractSpectrum, List.length_map, List.length_range, ha, hb, hc, hd]
    omega
  · simp only [extractSpectrum, List.length_map, List.length_range, ha, hb, hc, hd]
    omega
  · intro j hj
    simp only [extractSpectrum, List.length_map, List.length_range, ha, hb,
      hc, hd] at hj ⊢
    rw [getD_range_map _ _ j 0 hj, getD_range_map _ _ j 0 hj]
    exact ⟨rfl, rfl⟩

/-- Closed witness for C3_extract_correct: a one-pixel trace at column 5,
rows 0 to 1, on constant planes of value 2 (science) and 3 (error). -/
theorem C3_extract_correct_witness :
    ((extractSpectrum 2051 4096 (fun _ _ => 2) (fun _ _ => 3) 0 1
      [(5 : ℚ)]).1.length : ℤ) =
      pyInt (npMaxQ [(5 : ℚ)]) - pyInt (npMinQ [(5 : ℚ)]) + 1 ∧
    (extractSpectrum 2051 4096 (fun _ _ => 2) (fun _ _ => 3) 0 1
      [(5 : ℚ)]).1.getD 0 0 =
      ((List.range ((pyInt (1 : ℚ)).toNat - (pyInt (0 : ℚ)).toNat)).map
        (fun r => (fun _ _ => (2 : ℝ)) ((pyInt (0 : ℚ)).toNat + r)
          ((pyInt (npMinQ [(5 : ℚ)])).toNat + 0))).sum ∧
    (extractSpectrum 2051 4096 (fun _ _ => 2) (fun _ _ => 3) 0 1
      [(5 : ℚ)]).2.getD 0 0 =
      Real.sqrt (((List.range ((pyInt (1 : ℚ)).toNat - (pyInt (0 : ℚ)).toNat)).map
        (fun r => (fun _ _ => (3 : ℝ)) ((pyInt (0 : ℚ)).toNat + r)
          ((pyInt (npMinQ [(5 : ℚ)])).toNat + 0) ^ 2)).sum) := by
  have h0 : 0 < (extractSpectrum 2051 4096 (fun _ _ => (2 : ℝ))
      (fun _ _ => (3 : ℝ)) 0 1 [(5 : ℚ)]).1.length := by
    simp only [extractSpectrum, List.length_map, List.length_range]
    decide
  exact ⟨(C3_extract_correct 2051 4096 (fun _ _ => 2) (fun _ _ => 3) 0 1
      [(5 : ℚ)] (by decide) (by decide) (by decide) (by decide) (by decide)
      (by decide)).1,
    ((C3_extract_correct 2051 4096 (fun _ _ => 2) (fun _ _ => 3) 0 1
      [(5 : ℚ)] (by decide) (by decide) (by decide) (by decide) (by decide)
      (by decide)).2.2 0 h0).1,
    ((C3_extract_correct 2051 4096 (fun _ _ => 2) (fun _ _ => 3) 0 1
      [(5 : ℚ)] (by decide) (by decide) (by decide) (by decide) (by decide)
      (by decide)).2.2 0 h0).2⟩

/-! ### Spectral trace fitting (fit_spectral_trace)

The grismconf configuration object is an opaque external dependency; per
the specification it is modelled as a capability offering, for a fixed
spectral order, the forward X dispersion, inverse X dispersion, Y
dispersion and wavelength solution as functions of the source position and
a parametric coordinate, plus a per-order sensitivity function of
wavelength.  Exact rationals model its floating-point values. -/

/-- Abstract grismconf configuration for one spectral order: DISPX,
INVDISPX, DISPY and DISPL take the source position and a parametric
coordinate (or desired pixel offset for INVDISPX); sens is the sensitivity
function of wavelength. -/
structure GrismConfig where
  dispx : ℚ → ℚ → ℚ → ℚ
  invdispx : ℚ → ℚ → ℚ → ℚ
  dispy : ℚ → ℚ → ℚ → ℚ
  displ : ℚ → ℚ → ℚ → ℚ
  sens : ℚ → ℚ

/-- Embedding of np.arange(a, b, 1): the max(0, ceil(b - a)) values
a, a+1, a+2, ... below b. -/
def npArange (a b : ℚ) : List ℚ :=
  (List.range (⌈b - a⌉.toNat)).map (fun i : ℕ => a + (i : ℚ))

/-- Embedding of np.sort on the two-element array of queried dispersion
endpoints. -/
def npSortPair (a b : ℚ) : ℚ × ℚ := if a ≤ b then (a, b) else (b, a)

/-- Embedding of fit_spectral_trace (source lines 235-299): query the
forward X dispersion at parametric values 0 and 1, sort, build the unit
step offset sequence with np.arange, invert to parametric coordinates,
compute cross-dispersion offsets and wavelengths, jointly select the
entries whose wavelength lies in the inclusive window [wl_min, wl_max],
shift offsets by the source position and evaluate the sensitivity at the
selected wavelengths. -/
def fitSpectralTrace (cfg : GrismConfig) (sourceX sourceY wlMin wlMax : ℚ) :
    List ℚ × List ℚ × List ℚ × List ℚ :=
  let p := npSortPair (cfg.dispx sourceX sourceY 0) (cfg.dispx sourceX sourceY 1)
  let dispX := npArange p.1 p.2
  let trace := dispX.map (cfg.invdispx sourceX sourceY)
  let dispY := trace.map (cfg.dispy sourceX sourceY)
  let wavelength := trace.map (cfg.displ sourceX sourceY)
  let maskWl := wavelength.map (fun wl => decide (wlMin ≤ wl ∧ wl ≤ wlMax))
  let dispXf := npBoolSelect maskWl dispX
  let dispYf := npBoolSelect maskWl dispY
  let wavelengthF := npBoolSelect maskWl wavelength
  let traceX := dispXf.map (fun t => t + sourceX)
  let traceY := dispYf.map (fun t => t + sourceY)
  let sensitivity := wavelengthF.map cfg.sens
  (traceX, traceY, wavelengthF, sensitivity)

/-- All four outputs of fit_spectral_trace are maps of the common list of
pixel offsets whose wavelength lies in the inclusive window. -/
lemma fitSpectralTrace_eq (cfg : GrismConfig) (sx sy wlMin wlMax : ℚ) :
    fitSpectralTrace cfg sx sy wlMin wlMax =
      (((npArange (npSortPair (cfg.dispx sx sy 0) (cfg.dispx sx sy 1)).1
          (npSortPair (cfg.dispx sx sy 0) (cfg.dispx sx sy 1)).2).filter
          (fun t => decide (wlMin ≤ cfg.displ sx sy (cfg.invdispx sx sy t) ∧
            cfg.displ sx sy (cfg.invdispx sx sy t) ≤ wlMax))).map
          (fun t => t + sx),
        ((npArange (npSortPair (cfg.dispx sx sy 0) (cfg.dispx sx sy 1)).1
          (npSortPair (cfg.dispx sx sy 0) (cfg.dispx sx sy 1)).2).filter
          (fun t => decide (wlMin ≤ cfg.displ sx sy (cfg.invdispx sx sy t) ∧
            cfg.displ sx sy (cfg.invdispx sx sy t) ≤ wlMax))).map
          (fun t => cfg.dispy sx sy (cfg.invdispx sx sy t) + sy),
        ((npArange (npSortPair (cfg.dispx sx sy 0) (cfg.dispx sx sy 1)).1
          (npSortPair (cfg.dispx sx sy 0) (cfg.dispx sx sy 1)).2).filter
          (fun t => decide (wlMin ≤ cfg.displ sx sy (cfg.invdispx sx sy t) ∧
            cfg.displ sx sy (cfg.invdispx sx sy t) ≤ wlMax))).map
          (fun t => cfg.displ sx sy (cfg.invdispx sx sy t)),
        ((npArange (npSortPair (cfg.dispx sx sy 0) (cfg.dispx sx sy 1)).1
          (npSortPair (cfg.dispx sx sy 0) (cfg.dispx sx sy 1)).2).filter
          (fun t => decide (wlMin ≤ cfg.displ sx sy (cfg.invdispx sx sy t) ∧
            cfg.displ sx sy (cfg.invdispx sx sy t) ≤ wlMax))).map
          (fun t => cfg.sens (cfg.displ sx sy (cfg.invdispx sx sy t)))) := by
  unfold fitSpectralTrace
  simp only [List.map_map]
  rw [show (fun wl => decide (wlMin ≤ wl ∧ wl ≤ wlMax)) ∘
      (cfg.displ sx sy ∘ cfg.invdispx sx sy) =
      (fun t => decide (wlMin ≤ cfg.displ sx sy (cfg.invdispx sx sy t) ∧
        cfg.displ sx sy (cfg.invdispx sx sy t) ≤ wlMax)) from rfl]
  rw [npBoolSelect_map_self, npBoolSelect_map, npBoolSelect_map]
  simp only [List.map_map]
  rfl

/-- Element j of a map, for j below the length, via getD. -/
lemma getD_map_lt {α β : Type} (l : List α) (f : α → β) (j : ℕ) (d : β)
    (d' : α) (h : j < l.length) :
    (l.map f).getD j d = f (l.getD j d') := by
  rw [List.getD_eq_getElem _ _ (by simpa using h), List.getElem_map,
    List.getD_eq_getElem _ _ h]

/-- C5: the four arrays returned by fit_spectral_trace have equal length
and are co-indexed: every retained wavelength lies in the inclusive window
[wl_min, wl_max], the sensitivity entry j is the sensitivity function
evaluated at wavelength entry j, and a window containing no wavelength of
the sampled trace yields four empty arrays rather than an error. -/
theorem C5_trace_coindexed (cfg : GrismConfig) (sx sy wlMin wlMax : ℚ) :
    (fitSpectralTrace cfg sx sy wlMin wlMax).1.length =
      (fitSpectralTrace cfg sx sy wlMin wlMax).2.2.1.length ∧
    (fitSpectralTrace cfg sx sy wlMin wlMax).2.1.length =
      (fitSpectralTrace cfg sx sy wlMin wlMax).2.2.1.length ∧
    (fitSpectralTrace cfg sx sy wlMin wlMax).2.2.2.length =
      (fitSpectralTrace cfg sx sy wlMin wlMax).2.2.1.length ∧
    (∀ j, j < (fitSpectralTrace cfg sx sy wlMin wlMax).2.2.1.length →
      (wlMin ≤ (fitSpectralTrace cfg sx sy wlMin wlMax).2.2.1.getD j 0 ∧
        (fitSpectralTrace cfg sx sy wlMin wlMax).2.2.1.getD j 0 ≤ wlMax) ∧
      (fitSpectralTrace cfg sx sy wlMin wlMax).2.2.2.getD j 0 =
        cfg.sens ((fitSpectralTrace cfg sx sy wlMin wlMax).2.2.1.getD j 0)) ∧
    ((∀ t ∈ npArange (npSortPair (cfg.dispx sx sy 0) (cfg.dispx sx sy 1)).1
        (npSortPair (cfg.dispx sx sy 0) (cfg.dispx sx sy 1)).2,
      ¬(wlMin ≤ cfg.displ sx sy (cfg.invdispx sx sy t) ∧
        cfg.displ sx sy (cfg.invdispx sx sy t) ≤ wlMax)) →
      (fitSpectralTrace cfg sx sy wlMin wlMax).1 = [] ∧
      (fitSpectralTrace cfg sx sy wlMin wlMax).2.1 = [] ∧
      (fitSpectralTrace cfg sx sy wlMin wlMax).2.2.1 = [] ∧
      (fitSpectralTrace cfg sx sy wlMin wlMax).2.2.2 = []) := by
  rw [fitSpectralTrace_eq]
  refine ⟨by simp, by simp, by simp, ?_, ?_⟩
  · intro j hj
    simp only [List.length_map] at hj
    rw [getD_map_lt _ _ j 0 0 hj, getD_map_lt _ _ j 0 0 hj]
    have hmem : ((npArange (npSortPair (cfg.dispx sx sy 0) (cfg.dispx sx sy 1)).1
        (npSortPair (cfg.dispx sx sy 0) (cfg.dispx sx sy 1)).2).filter
        (fun t => decide (wlMin ≤ cfg.displ sx sy (cfg.invdispx sx sy t) ∧
          cfg.displ sx sy (cfg.invdispx sx sy t) ≤ wlMax))).getD j 0 ∈
        (npArange (npSortPair (cfg.dispx sx sy 0) (cfg.dispx sx sy 1)).1
        (npSortPair (cfg.dispx sx sy 0) (cfg.dispx sx sy 1)).2).filter
        (fun t => decide (wlMin ≤ cfg.displ sx sy (cfg.invdispx sx sy t) ∧
          cfg.displ sx sy (cfg.invdispx sx sy t) ≤ wlMax)) := by
      rw [List.getD_eq_getElem _ _ hj]
      exact List.getElem_mem _
    have hP := (List.mem_filter.mp hmem).2
    exact ⟨of_decide_eq_true hP, rfl⟩
  · intro hnone
    have hfil : (npArange (npSortPair (cfg.dispx sx sy 0) (cfg.dispx sx sy 1)).1
        (npSortPair (cfg.dispx sx sy 0) (cfg.dispx sx sy 1)).2).filter
        (fun t => decide (wlMin ≤ cfg.displ sx sy (cfg.invdispx sx sy t) ∧
          cfg.displ sx sy (cfg.invdispx sx sy t) ≤ wlMax)) = [] := by
      rw [List.filter_eq_nil_iff]
      intro t ht
      simpa using hnone t ht
    rw [hfil]
    exact ⟨rfl, rfl, rfl, rfl⟩

/-- Sample integer-valued configuration used by the closed witnesses: the
trace spans pixel offsets 0 and 1 with constant wavelength 3000. -/
def intCfg : GrismConfig where
  dispx := fun _ _ t => 2 * t
  invdispx := fun _ _ t => t
  dispy := fun _ _ t => t
  displ := fun _ _ _ => 3000
  sens := fun w => w + 1

/-- Closed witness for C5 at the sample configuration: equal lengths and
the co-indexing facts at index 0. -/
lemma intCfg_wavelengths :
    (fitSpectralTrace intCfg 0 0 2000 8000).2.2.1 = [3000, 3000] := by
  rw [fitSpectralTrace_eq]
  show ((npArange (npSortPair (intCfg.dispx 0 0 0) (intCfg.dispx 0 0 1)).1
      (npSortPair (intCfg.dispx 0 0 0) (intCfg.dispx 0 0 1)).2).filter _).map _ = _
  rw [show intCfg.dispx 0 0 0 = 0 by norm_num [intCfg],
    show intCfg.dispx 0 0 1 = 2 by norm_num [intCfg],
    show npSortPair (0 : ℚ) 2 = (0, 2) by
      unfold npSortPair
      rw [if_pos (by norm_num)]]
  rw [show npArange (0 : ℚ) 2 = [0, 1] by
      unfold npArange
      rw [show (2 : ℚ) - 0 = 2 by norm_num,
        show ⌈(2 : ℚ)⌉ = 2 by decide,
        show ((2 : ℤ)).toNat = 2 from rfl,
        show List.range 2 = [0, 1] from rfl]
      simp]
  simp only [intCfg]
  simp only [show (decide ((2000 : ℚ) ≤ 3000 ∧ (3000 : ℚ) ≤ 8000)) = true
    by decide]
  simp [List.filter]

theorem C5_trace_coindexed_witness :
    (fitSpectralTrace intCfg 0 0 2000 8000).1.length =
      (fitSpectralTrace intCfg 0 0 2000 8000).2.2.1.length ∧
    (fitSpectralTrace intCfg 0 0 2000 8000).2.1.length =
      (fitSpectralTrace intCfg 0 0 2000 8000).2.2.1.length ∧
    (fitSpectralTrace intCfg 0 0 2000 8000).2.2.2.length =
      (fitSpectralTrace intCfg 0 0 2000 8000).2.2.1.length ∧
    ((2000 ≤ (fitSpectralTrace intCfg 0 0 2000 8000).2.2.1.getD 0 0 ∧
      (fitSpectralTrace intCfg 0 0 2000 8000).2.2.1.getD 0 0 ≤ 8000) ∧
    (fitSpectralTrace intCfg 0 0 2000 8000).2.2.2.getD 0 0 =
      intCfg.sens ((fitSpectralTrace intCfg 0 0 2000 8000).2.2.1.getD 0 0)) :=
  ⟨(C5_trace_coindexed intCfg 0 0 2000 8000).1,
    (C5_trace_coindexed intCfg 0 0 2000 8000).2.1,
    (C5_trace_coindexed intCfg 0 0 2000 8000).2.2.1,
    (C5_trace_coindexed intCfg 0 0 2000 8000).2.2.2.1 0
      (by rw [intCfg_wavelengths]; simp)⟩

/-- Configuration whose forward dispersion endpoints are the non-integer
values 1/2 and 5/2, with constant wavelength 3000. -/
def halfCfg : GrismConfig where
  dispx := fun _ _ t => 2 * t + 1/2
  invdispx := fun _ _ t => t
  dispy := fun _ _ t => t
  displ := fun _ _ _ => 3000
  sens := fun w => w

/-- Evaluation of the trace x positions of fit_spectral_trace at halfCfg:
np.arange starts at the queried lower endpoint 1/2, so the pixel offsets
are the non-integers 1/2 and 3/2. -/
lemma halfCfg_traceX :
    (fitSpectralTrace halfCfg 0 0 2000 8000).1 = [1/2, 3/2] := by
  rw [fitSpectralTrace_eq]
  show ((npArange (npSortPair (halfCfg.dispx 0 0 0) (halfCfg.dispx 0 0 1)).1
      (npSortPair (halfCfg.dispx 0 0 0) (halfCfg.dispx 0 0 1)).2).filter _).map _ = _
  rw [show halfCfg.dispx 0 0 0 = 1/2 by norm_num [halfCfg],
    show halfCfg.dispx 0 0 1 = 5/2 by norm_num [halfCfg],
    show npSortPair (1/2 : ℚ) (5/2) = (1/2, 5/2) by
      unfold npSortPair
      rw [if_pos (by norm_num)]]
  rw [show npArange (1/2 : ℚ) (5/2) = [1/2, 3/2] by
      unfold npArange
      rw [show (5/2 : ℚ) - 1/2 = 2 by norm_num,
        show ⌈(2 : ℚ)⌉ = 2 by decide,
        show ((2 : ℤ)).toNat = 2 from rfl,
        show List.range 2 = [0, 1] from rfl]
      simp
      norm_num]
  simp only [halfCfg]
  simp only [show (decide ((2000 : ℚ) ≤ 3000 ∧ (3000 : ℚ) ≤ 8000)) = true
    by decide]
  simp [List.filter]

/-- C6 (counterexample): the claim says fit_spectral_trace builds the
pixel-offset sequence as integers.  For a dispersion model whose queried
endpoints are 1/2 and 5/2, the sequence is 1/2, 3/2 and the first returned
trace x position is not an integer. -/
theorem C6_integer_counterexample :
    (fitSpectralTrace halfCfg 0 0 2000 8000).1 = [1/2, 3/2] ∧
    ((⌊(fitSpectralTrace halfCfg 0 0 2000 8000).1.getD 0 0⌋ : ℚ) ≠
      (fitSpectralTrace halfCfg 0 0 2000 8000).1.getD 0 0) := by
  refine ⟨halfCfg_traceX, ?_⟩
  rw [halfCfg_traceX]
  rw [show ([(1/2 : ℚ), 3/2]).getD 0 0 = 1/2 from rfl]
  rw [show ⌊(1/2 : ℚ)⌋ = 0 by
    rw [Int.floor_eq_iff]
    norm_num]
  norm_num

/-- C6 (amended): fit_spectral_trace builds the pixel-offset sequence
starting at the smaller of the two queried forward-dispersion endpoint
values and advancing in steps of 1 pixel (entry j is that endpoint plus j;
offsets are integer spaced but need not be integers), and the returned
trace_x is strictly increasing. -/
theorem C6_trace_spacing (cfg : GrismConfig) (sx sy wlMin wlMax : ℚ) :
    (∀ j, j < (npArange (npSortPair (cfg.dispx sx sy 0) (cfg.dispx sx sy 1)).1
        (npSortPair (cfg.dispx sx sy 0) (cfg.dispx sx sy 1)).2).length →
      (npArange (npSortPair (cfg.dispx sx sy 0) (cfg.dispx sx sy 1)).1
        (npSortPair (cfg.dispx sx sy 0) (cfg.dispx sx sy 1)).2).getD j 0 =
        (npSortPair (cfg.dispx sx sy 0) (cfg.dispx sx sy 1)).1 + j) ∧
    List.Pairwise (· < ·) (fitSpectralTrace cfg sx sy wlMin wlMax).1 := by
  constructor
  · intro j hj
    unfold npArange at hj ⊢
    simp only [List.length_map, List.length_range] at hj
    rw [getD_range_map _ _ j 0 hj]
  · have hA : List.Pairwise (· < ·)
        (npArange (npSortPair (cfg.dispx sx sy 0) (cfg.dispx sx sy 1)).1
          (npSortPair (cfg.dispx sx sy 0) (cfg.dispx sx sy 1)).2) := by
      unfold npArange
      refine List.Pairwise.map _ ?_ (List.pairwise_lt_range _)
      intro a b hab
      have hq : (a : ℚ) < b := by exact_mod_cast hab
      linarith
    rw [fitSpectralTrace_eq]
    exact List.Pairwise.map _ (fun a b hab => by linarith)
      (List.Pairwise.filter _ hA)

/-- Evaluation of the offset sequence of fit_spectral_trace at the sample
integer configuration. -/
lemma intCfg_arange :
    npArange (npSortPair (intCfg.dispx 0 0 0) (intCfg.dispx 0 0 1)).1
      (npSortPair (intCfg.dispx 0 0 0) (intCfg.dispx 0 0 1)).2 = [0, 1] := by
  rw [show intCfg.dispx 0 0 0 = 0 by norm_num [intCfg],
    show intCfg.dispx 0 0 1 = 2 by norm_num [intCfg],
    show npSortPair (0 : ℚ) 2 = (0, 2) by
      unfold npSortPair
      rw [if_pos (by norm_num)]]
  unfold npArange
  rw [show (2 : ℚ) - 0 = 2 by norm_num, show ⌈(2 : ℚ)⌉ = 2 by decide,
    show ((2 : ℤ)).toNat = 2 from rfl, show List.range 2 = [0, 1] from rfl]
  simp

/-- Closed witness for C6_trace_spacing at the sample configuration:
offset entry 0 is the lower queried endpoint, and the returned trace x
positions are strictly increasing. -/
theorem C6_trace_spacing_witness :
    (npArange (npSortPair (intCfg.dispx 0 0 0) (intCfg.dispx 0 0 1)).1
      (npSortPair (intCfg.dispx 0 0 0) (intCfg.dispx 0 0 1)).2).getD 0 0 =
      (npSortPair (intCfg.dispx 0 0 0) (intCfg.dispx 0 0 1)).1 + 0 ∧
    List.Pairwise (· < ·) (fitSpectralTrace intCfg 0 0 2000 8000).1 :=
  ⟨(C6_trace_spacing intCfg 0 0 2000 8000).1 0
      (by rw [intCfg_arange]; simp),
    (C6_trace_spacing intCfg 0 0 2000 8000).2⟩

end G280
